import Mathlib

set_option linter.unusedVariables false

/-! Verification of the configuration store and MATLAB engine session manager
implemented in `execute.py`.  The store follows Python `configparser`
semantics: option keys are lowercased on storage and lookup, `#` starts a
comment when it opens a line or is preceded by whitespace, and `=` / `:`
delimit keys from values.  Strings are modelled as `List Char`, a file as its
raw character content with newline separators, and the external MATLAB engine
as an oracle supplying the outcome of every external call. -/

abbrev Str := List Char

/-- Whitespace test used by Python `str.strip` (ASCII subset). -/
def isWS (c : Char) : Bool :=
  c == ' ' || c == '\t' || c == '\n' || c == '\r' || c == '\x0b' || c == '\x0c'

/-- Python `str.lstrip`. -/
def lstrip (s : Str) : Str := s.dropWhile isWS

/-- Python `str.strip`. -/
def strip (s : Str) : Str := (lstrip (lstrip s).reverse).reverse

/-- Python `str.lower` (per-character). -/
def lower (s : Str) : Str := s.map Char.toLower

/-- Python `sep.join parts` for a one-character separator. -/
def joinSep (sep : Char) : List Str → Str
  | [] => []
  | [x] => x
  | x :: y :: rest => x ++ sep :: joinSep sep (y :: rest)

/-- Python `s.split(sep)` for a one-character separator. -/
def splitSep (sep : Char) : Str → List Str
  | [] => [[]]
  | c :: rest =>
    match splitSep sep rest with
    | [] => [[]]
    | g :: gs => if c = sep then [] :: g :: gs else (c :: g) :: gs

/-- Digit run of CPython `int()`, with the underscore grouping rules
(an underscore must sit between two digits). -/
def pyDigits : List Char → Option Nat → Option Nat
  | [], acc => acc
  | c :: rest, acc =>
    if c.isDigit then pyDigits rest (some ((acc.getD 0) * 10 + (c.toNat - 48)))
    else if c = '_' then
      match acc, rest with
      | some a, d :: _ => if d.isDigit then pyDigits rest (some a) else none
      | _, _ => none
    else none

/-- CPython `int(s)` on ASCII input: `some n` on success, `none` where Python
raises `ValueError`. -/
def pyIntOfStr (s : Str) : Option Int :=
  match strip s with
  | '+' :: rest => (pyDigits rest none).map Int.ofNat
  | '-' :: rest => (pyDigits rest none).map (fun n => -(n : Int))
  | l => (pyDigits l none).map Int.ofNat

/-- Association-list lookup (first match), modelling Python `dict` access. -/
def alookup {α : Type} (k : Str) : List (Str × α) → Option α
  | [] => none
  | (k', v) :: rest => if k' = k then some v else alookup k rest

/-- Ordered insert-or-replace, modelling Python `dict.__setitem__`. -/
def upsert {α : Type} (k : Str) (v : α) : List (Str × α) → List (Str × α)
  | [] => [(k, v)]
  | (k', v') :: rest => if k' = k then (k, v) :: rest else (k', v') :: upsert k v rest

/-- In-memory configuration: ordered sections, each an ordered key → value
map.  Option keys are stored lowercased (`configparser.optionxform`). -/
structure Config where
  sections : List (Str × List (Str × Str))
deriving DecidableEq

def Config.hasSection (c : Config) (sec : Str) : Bool :=
  (alookup sec c.sections).isSome

/-- `config[sec][key]`: the key is lowercased on lookup, as `configparser`
section proxies do. -/
def Config.get (c : Config) (sec key : Str) : Option Str :=
  match alookup sec c.sections with
  | none => none
  | some items => alookup (lower key) items

/-- `config[sec][key] = value`: the key is lowercased on store; the section is
created at the end when absent. -/
def Config.setKey (c : Config) (sec k v : Str) : Config :=
  let base := if c.hasSection sec then c.sections else c.sections ++ [(sec, [])]
  ⟨base.map fun s => if s.1 = sec then (s.1, upsert (lower k) v s.2) else s⟩

/-- Filesystem model: files with raw character contents plus directories. -/
structure FS where
  files : List (Str × Str)
  dirs : List Str
deriving DecidableEq

/-- `os.path.exists`. -/
def FS.pathExists (fs : FS) (p : Str) : Bool :=
  (alookup p fs.files).isSome || fs.dirs.any fun d => d == p

def FS.writeFile (fs : FS) (p content : Str) : FS :=
  { fs with files := upsert p content fs.files }

/-- Remove a `#` comment from a raw line: `configparser` starts a comment at a
`#` that opens the line or is preceded by whitespace. -/
def stripCommentAux : Bool → Str → Str
  | _, [] => []
  | atWS, c :: rest =>
    if c == '#' && atWS then [] else c :: stripCommentAux (isWS c) rest

def stripComment (l : Str) : Str := stripCommentAux true l

/-- Section header `[NAME]` with a nonempty name. -/
def headerName? : Str → Option Str
  | [] => none
  | c :: rest =>
    if c == '[' && rest.getLast? == some ']' && decide (2 ≤ rest.length) then
      some rest.dropLast
    else none

/-- Split a line at its first `=` or `:` delimiter. -/
def splitAtDelim : Str → Option (Str × Str)
  | [] => none
  | c :: rest =>
    if c = '=' || c = ':' then some ([], rest)
    else (splitAtDelim rest).map fun p => (c :: p.1, p.2)

def ensureSection (c : Config) (sec : Str) : Config :=
  if c.hasSection sec then c else ⟨c.sections ++ [(sec, [])]⟩

/-- One line of `configparser` reading (continuation lines not modelled; a
duplicate key overwrites).  State: configuration so far and current section. -/
def parseStep (st : Config × Option Str) (line : Str) : Config × Option Str :=
  let t := strip (stripComment line)
  if t = [] then st
  else
    match headerName? t with
    | some name => (ensureSection st.1 name, some name)
    | none =>
      match splitAtDelim t with
      | some (k0, v0) =>
        let k := strip k0
        let v := strip v0
        if k = [] then st
        else
          match st.2 with
          | some sec => (Config.setKey st.1 sec k v, st.2)
          | none => st
      | none => st

def parseLines (ls : List Str) : Config :=
  (ls.foldl parseStep (⟨[]⟩, none)).1

def parseText (content : Str) : Config :=
  parseLines (splitSep '\n' content)

structure ConfigManager where
  config_file : Str
  config : Config
deriving DecidableEq

def fileNotFoundMsg (p : Str) : Str :=
  "Configuration file ".data ++ p ++ " not found!".data

/-- `ConfigManager.load_config`: raises `FileNotFoundError` when the backing
file is absent, otherwise parses it. -/
def load_config (fs : FS) (p : Str) : Except Str Config :=
  if fs.pathExists p then Except.ok (parseText ((alookup p fs.files).getD []))
  else Except.error (fileNotFoundMsg p)

/-- Serialized lines of a configuration
(`config.write` with `space_around_delimiters=True`). -/
def writeBlocks : List (Str × List (Str × Str)) → List Str
  | [] => []
  | s :: rest =>
    ('[' :: s.1 ++ [']'])
      :: (s.2.map fun kv => kv.1 ++ ' ' :: '=' :: ' ' :: kv.2) ++ [] :: writeBlocks rest

def Config.write (c : Config) : Str :=
  joinSep '\n' (writeBlocks c.sections)

/-- `ConfigManager.save_config`: overwrite the backing file. -/
def save_config (cm : ConfigManager) (fs : FS) : FS :=
  fs.writeFile cm.config_file cm.config.write

/-- `ConfigManager.get_matlab_paths`. -/
def get_matlab_paths (c : Config) : List (Str × Str) :=
  (alookup "PATHS".data c.sections).getD []

/-- `ConfigManager.get_date_range`: empty when the DATES section is absent,
otherwise both keys with fixed defaults. -/
def get_date_range (c : Config) : List (Str × Str) :=
  match alookup "DATES".data c.sections with
  | none => []
  | some items =>
    [("start_date".data, (alookup "start_date".data items).getD "1979-1-1".data),
     ("end_date".data, (alookup "end_date".data items).getD "2000-12-31".data)]

/-- `ConfigManager.get_calibration_settings`. -/
def get_calibration_settings (c : Config) : List (Str × Str) :=
  (alookup "CALIBRATION".data c.sections).getD []

/-- A Python value held in a settings dictionary. -/
inductive PyVal
  | str (s : Str)
  | list (l : List Str)
  | int (n : Int)
deriving DecidableEq

/-- `ConfigManager.get_simulation_settings`: copies the SIMULATION section,
turns `output_vars` into a comma-split stripped list and coerces `verbose` to
an integer (0 when unparseable).  No entry is added for an absent key. -/
def get_simulation_settings (c : Config) : List (Str × PyVal) :=
  match alookup "SIMULATION".data c.sections with
  | none => []
  | some items =>
    let base : List (Str × PyVal) := items.map fun kv => (kv.1, PyVal.str kv.2)
    let s1 := match alookup "output_vars".data items with
      | some ov => upsert "output_vars".data (PyVal.list ((splitSep ',' ov).map strip)) base
      | none => base
    match alookup "verbose".data items with
    | some vb => upsert "verbose".data (PyVal.int ((pyIntOfStr vb).getD 0)) s1
    | none => s1

/-- `str(value)` conversion of `ConfigManager.update_section`: lists become
comma-joined strings. -/
def pyValToStr : PyVal → Str
  | PyVal.str s => s
  | PyVal.list l => joinSep ',' l
  | PyVal.int n => (toString n).data

/-- `ConfigManager.update_section`: merge keys into a section (created when
absent) and immediately persist the whole store. -/
def update_section (cm : ConfigManager) (fs : FS) (sec : Str)
    (settings : List (Str × PyVal)) : ConfigManager × FS :=
  let c1 := settings.foldl (fun c kv => Config.setKey c sec kv.1 (pyValToStr kv.2))
    (ensureSection cm.config sec)
  let cm' := { cm with config := c1 }
  (cm', save_config cm' fs)

def defaultMatlabPaths : List (Str × Str) :=
  [("main".data, "src".data),
   ("functions".data, "src/matlab_functions".data),
   ("calibration".data, "src/calibration".data),
   ("sensitivity".data, "src/sensitivity_analysis".data),
   ("results".data, "results".data)]

/-- State of a `MatlabRunner`; `engine` is the session handle, carrying the
paths registered with the live session when one is active. -/
structure MatlabRunner where
  cm : ConfigManager
  matlab_paths : List (Str × Str)
  start_date : Str
  end_date : Str
  objective_function : Str
  calibration_type : Str
  CP : Int
  engine : Option (List Str)
deriving DecidableEq

/-- `MatlabRunner.__init__`; `Except` because the `int(...)` coercion of the
CP option can raise. -/
def mkRunner (cm : ConfigManager) : Except Str MatlabRunner :=
  let paths0 := get_matlab_paths cm.config
  let paths := if paths0 = [] then defaultMatlabPaths else paths0
  let dr := get_date_range cm.config
  let sd := (alookup "start_date".data dr).getD "1979-1-1".data
  let ed := (alookup "end_date".data dr).getD "2000-12-31".data
  let cal := get_calibration_settings cm.config
  let objf := (alookup "objective_function".data cal).getD "KGE".data
  let ctype := (alookup "type".data cal).getD "single_site".data
  match pyIntOfStr ((alookup "CP".data cal).getD "1".data) with
  | some n =>
    Except.ok { cm := cm, matlab_paths := paths, start_date := sd, end_date := ed,
                objective_function := objf, calibration_type := ctype, CP := n,
                engine := none }
  | none => Except.error "ValueError: invalid literal for int()".data

/-- Ambient state outside the runner: the filesystem and a count of engine
sessions started so far (instrumentation used to state that no session is
launched on a failing path). -/
structure World where
  fs : FS
  startCount : Nat
deriving DecidableEq

/-- Opaque value returned by the external engine. -/
abbrev MatVal := Str

abbrev ParamRanges := List (Str × List Int)

/-- Behaviour of the external MATLAB engine: whether it starts, and the
outcome of each external routine call. -/
structure EngineOracle where
  startOk : Bool
  datenum : Str → Except Str Int
  main_simulation : Option PyVal → Option PyVal → Int × Int → PyVal → PyVal → Except Str MatVal
  main_calibration_flow : Option PyVal → Option PyVal → Option PyVal → Int × Int → Str → Int → PyVal → Except Str Unit
  main_sensitivity : Option PyVal → Option PyVal → Int × Int → ParamRanges → PyVal → Except Str MatVal

/-- Python truthiness. -/
def truthy : PyVal → Bool
  | PyVal.str s => s ≠ []
  | PyVal.list l => l ≠ []
  | PyVal.int n => n ≠ 0

def truthyO : Option PyVal → Bool
  | none => false
  | some v => truthy v

/-- Python `a or b` on optional values. -/
def pyOr (a b : Option PyVal) : Option PyVal := if truthyO a then a else b

/-- `MatlabRunner._initialize_engine`: start a session when none is active and
register every configured path that exists on disk. -/
def initialize_engine (o : EngineOracle) (r : MatlabRunner) (w : World) :
    Except Str Unit × MatlabRunner × World :=
  match r.engine with
  | some _ => (Except.ok (), r, w)
  | none =>
    if o.startOk then
      (Except.ok (),
       { r with engine := some ((r.matlab_paths.map Prod.snd).filter fun p => w.fs.pathExists p) },
       { w with startCount := w.startCount + 1 })
    else (Except.error "could not start MATLAB engine".data, r, w)

/-- `MatlabRunner._close_engine`. -/
def close_engine (r : MatlabRunner) : MatlabRunner :=
  match r.engine with
  | some _ => { r with engine := none }
  | none => r

/-- `MatlabRunner._get_execution_params`: both date-to-number conversions. -/
def get_execution_params (o : EngineOracle) (r : MatlabRunner) : Except Str (Int × Int) :=
  match o.datenum r.start_date with
  | Except.error e => Except.error e
  | Except.ok d1 =>
    match o.datenum r.end_date with
    | Except.error e => Except.error e
    | Except.ok d2 => Except.ok (d1, d2)

def simValMsg : Str := "Physiographic path and parameters file must be provided".data

def calibValMsg : Str :=
  "Physiographic path, flow file path, and parameters file must be provided".data

def sensRangesMsg : Str :=
  "Parameter ranges must be provided for sensitivity analysis".data

/-- The `try` block of `MatlabRunner.run_simulation`. -/
def run_simulation_try (o : EngineOracle) (r : MatlabRunner) (w : World)
    (physiographic_path params_name : Option Str) (output_vars : Option (List Str))
    (verbose : Option Int) : Except Str MatVal × MatlabRunner × World :=
  let sim := get_simulation_settings r.cm.config
  let pp := pyOr (physiographic_path.map PyVal.str) (alookup "physiographic_path".data sim)
  let pn := pyOr (params_name.map PyVal.str) (alookup "params_file".data sim)
  let ov := (pyOr (output_vars.map PyVal.list)
    (some ((alookup "output_vars".data sim).getD (PyVal.list ["debit".data])))).getD (PyVal.list [])
  let vb : PyVal := match verbose with
    | some n => PyVal.int n
    | none => (alookup "verbose".data sim).getD (PyVal.int 0)
  if !truthyO pp || !truthyO pn then (Except.error simValMsg, r, w)
  else
    match initialize_engine o r w with
    | (Except.error e, r1, w1) => (Except.error e, r1, w1)
    | (Except.ok _, r1, w1) =>
      match get_execution_params o r1 with
      | Except.error e => (Except.error e, r1, w1)
      | Except.ok ex =>
        match o.main_simulation pp pn ex ov vb with
        | Except.error e => (Except.error e, r1, w1)
        | Except.ok v => (Except.ok v, r1, w1)

def exceptToOption {ε α : Type} : Except ε α → Option α
  | Except.ok a => some a
  | Except.error _ => none

def isOkB {ε α : Type} : Except ε α → Bool
  | Except.ok _ => true
  | Except.error _ => false

/-- `MatlabRunner.run_simulation`: caught failures yield `None`; the session is
torn down unconditionally (`finally`). -/
def run_simulation (o : EngineOracle) (r : MatlabRunner) (w : World)
    (physiographic_path params_name : Option Str) (output_vars : Option (List Str))
    (verbose : Option Int) : Option MatVal × MatlabRunner × World :=
  let t := run_simulation_try o r w physiographic_path params_name output_vars verbose
  (exceptToOption t.1, close_engine t.2.1, t.2.2)

/-- The `try` block of `MatlabRunner.run_calibration_flow`: resolves settings,
validates, derives the prefix path under the calibration-results root
(creating the directory when missing) and invokes the external routine. -/
def run_calibration_flow_try (o : EngineOracle) (r : MatlabRunner) (w : World)
    (physiographic_path flow_file_path params_name : Option Str) (verbose : Option Int) :
    Except Str Unit × MatlabRunner × World :=
  let sim := get_simulation_settings r.cm.config
  let pp := pyOr (physiographic_path.map PyVal.str) (alookup "physiographic_path".data sim)
  let fp := pyOr (flow_file_path.map PyVal.str) (alookup "flow_file_path".data sim)
  let pn := pyOr (params_name.map PyVal.str) (alookup "params_file".data sim)
  let _verbose : PyVal := match verbose with
    | some n => PyVal.int n
    | none => (alookup "verbose".data sim).getD (PyVal.int 0)
  let thermie : PyVal := (alookup "thermie".data sim).getD (PyVal.int 0)
  if !truthyO pp || !truthyO fp || !truthyO pn then (Except.error calibValMsg, r, w)
  else
    match initialize_engine o r w with
    | (Except.error e, r1, w1) => (Except.error e, r1, w1)
    | (Except.ok _, r1, w1) =>
      match get_execution_params o r1 with
      | Except.error e => (Except.error e, r1, w1)
      | Except.ok ex =>
        let prefixPath := "results/calibration/CMAES/".data ++ r1.objective_function
        let w2 := if w1.fs.pathExists prefixPath then w1
          else { w1 with fs := { w1.fs with dirs := w1.fs.dirs ++ [prefixPath] } }
        let prefixName := prefixPath ++ '/' :: r1.objective_function
        match o.main_calibration_flow pp fp pn ex prefixName r1.CP thermie with
        | Except.error e => (Except.error e, r1, w2)
        | Except.ok _ => (Except.ok (), r1, w2)

/-- `MatlabRunner.run_calibration_flow`: 0 on success, 1 on caught failure,
session torn down unconditionally. -/
def run_calibration_flow (o : EngineOracle) (r : MatlabRunner) (w : World)
    (physiographic_path flow_file_path params_name : Option Str) (verbose : Option Int) :
    Int × MatlabRunner × World :=
  let t := run_calibration_flow_try o r w physiographic_path flow_file_path params_name verbose
  ((match t.1 with | Except.ok _ => 0 | Except.error _ => 1), close_engine t.2.1, t.2.2)

/-- The `try` block of `MatlabRunner.run_sensitivity_analysis`. -/
def run_sensitivity_analysis_try (o : EngineOracle) (r : MatlabRunner) (w : World)
    (physiographic_path params_name : Option Str) (parameter_ranges : Option ParamRanges)
    (verbose : Option Int) : Except Str MatVal × MatlabRunner × World :=
  let sim := get_simulation_settings r.cm.config
  let pp := pyOr (physiographic_path.map PyVal.str) (alookup "physiographic_path".data sim)
  let pn := pyOr (params_name.map PyVal.str) (alookup "params_file".data sim)
  let vb : PyVal := match verbose with
    | some n => PyVal.int n
    | none => (alookup "verbose".data sim).getD (PyVal.int 0)
  let _thermie : PyVal := (alookup "thermie".data sim).getD (PyVal.int 0)
  if !truthyO pp || !truthyO pn then (Except.error simValMsg, r, w)
  else
    match parameter_ranges with
    | none => (Except.error sensRangesMsg, r, w)
    | some ranges =>
      match initialize_engine o r w with
      | (Except.error e, r1, w1) => (Except.error e, r1, w1)
      | (Except.ok _, r1, w1) =>
        match get_execution_params o r1 with
        | Except.error e => (Except.error e, r1, w1)
        | Except.ok ex =>
          match o.main_sensitivity pp pn ex ranges vb with
          | Except.error e => (Except.error e, r1, w1)
          | Except.ok v => (Except.ok v, r1, w1)

/-- `MatlabRunner.run_sensitivity_analysis`. -/
def run_sensitivity_analysis (o : EngineOracle) (r : MatlabRunner) (w : World)
    (physiographic_path params_name : Option Str) (parameter_ranges : Option ParamRanges)
    (verbose : Option Int) : Option MatVal × MatlabRunner × World :=
  let t := run_sensitivity_analysis_try o r w physiographic_path params_name
    parameter_ranges verbose
  (exceptToOption t.1, close_engine t.2.1, t.2.2)

/-- `MatlabRunner.add_matlab_path`: update the in-memory mapping, persist the
PATHS section, and register the path with a live session only when the path
exists on disk. -/
def add_matlab_path (r : MatlabRunner) (fs : FS) (name path : Str) : MatlabRunner × FS :=
  let r1 := { r with matlab_paths := upsert name path r.matlab_paths }
  let (cm', fs') := update_section r1.cm fs "PATHS".data [(name, PyVal.str path)]
  let r2 := { r1 with cm := cm' }
  match r2.engine with
  | some regs =>
    if fs'.pathExists path then ({ r2 with engine := some (regs ++ [path]) }, fs')
    else (r2, fs')
  | none => (r2, fs')

/-- All conditions under which the calibration flow completes with no caught
error: the three required parameters resolved, the engine started, both date
conversions and the external calibration routine succeeding. -/
def calib_ok (o : EngineOracle) (r : MatlabRunner) (w : World)
    (physiographic_path flow_file_path params_name : Option Str) : Bool :=
  let sim := get_simulation_settings r.cm.config
  let pp := pyOr (physiographic_path.map PyVal.str) (alookup "physiographic_path".data sim)
  let fp := pyOr (flow_file_path.map PyVal.str) (alookup "flow_file_path".data sim)
  let pn := pyOr (params_name.map PyVal.str) (alookup "params_file".data sim)
  truthyO pp && truthyO fp && truthyO pn && o.startOk &&
    (match o.datenum r.start_date, o.datenum r.end_date with
     | Except.ok d1, Except.ok d2 =>
       isOkB (o.main_calibration_flow pp fp pn (d1, d2)
         (("results/calibration/CMAES/".data ++ r.objective_function)
           ++ '/' :: r.objective_function)
         r.CP ((alookup "thermie".data sim).getD (PyVal.int 0)))
     | _, _ => false)

/-- Keys of a configuration are stored in normalized (lowercased) form; this
holds for every store built through `parseText` or `Config.setKey`. -/
def normalizedB (c : Config) : Bool :=
  c.sections.all fun s => s.2.all fun kv => lower kv.1 = kv.1

theorem close_engine_engine (r : MatlabRunner) : (close_engine r).engine = none := by
  cases h : r.engine <;> simp [close_engine, h]

theorem alookup_cons {α : Type} (k a : Str) (v : α) (l : List (Str × α)) :
    alookup a ((k, v) :: l) = if k = a then some v else alookup a l := rfl

theorem alookup_map_ite {α : Type} (a : Str) (g : α → α) (l : List (Str × α)) :
    alookup a (l.map fun s => if s.1 = a then (s.1, g s.2) else s) = (alookup a l).map g := by
  induction l with
  | nil => rfl
  | cons hd tl ih =>
    obtain ⟨k, v⟩ := hd
    by_cases h : k = a
    · simp only [List.map_cons, h, eq_self_iff_true, if_true, ite_true, alookup_cons,
        Option.map_some']
    · simp only [List.map_cons, if_neg h, alookup_cons, ih]

theorem alookup_append_of_none {α : Type} (a : Str) (l m : List (Str × α))
    (h : alookup a l = none) : alookup a (l ++ m) = alookup a m := by
  induction l with
  | nil => rfl
  | cons hd tl ih =>
    by_cases he : hd.1 = a
    · simp [alookup, he] at h
    · simp only [alookup, List.cons_append] at h ⊢
      rw [if_neg he] at h ⊢
      exact ih h

theorem alookup_mem {α : Type} {a : Str} {b : α} {l : List (Str × α)}
    (h : alookup a l = some b) : (a, b) ∈ l := by
  induction l with
  | nil => simp [alookup] at h
  | cons hd tl ih =>
    obtain ⟨k, v⟩ := hd
    by_cases he : k = a
    · subst he
      simp only [alookup, if_pos rfl] at h
      cases h
      exact List.mem_cons_self _ _
    · simp only [alookup, if_neg he] at h
      exact List.mem_cons_of_mem _ (ih h)

theorem upsert_forall {α : Type} {P : Str × α → Prop} {k : Str} {v : α} {l : List (Str × α)}
    (hkv : P (k, v)) (hl : ∀ kv ∈ l, P kv) : ∀ kv ∈ upsert k v l, P kv := by
  induction l with
  | nil =>
    intro kv hm
    simp only [upsert, List.mem_singleton] at hm
    exact hm ▸ hkv
  | cons hd tl ih =>
    obtain ⟨k', v'⟩ := hd
    intro kv hm
    by_cases he : k' = k
    · simp only [upsert, if_pos he, List.mem_cons] at hm
      rcases hm with hm | hm
      · exact hm ▸ hkv
      · exact hl kv (List.mem_cons_of_mem _ hm)
    · simp only [upsert, if_neg he, List.mem_cons] at hm
      rcases hm with hm | hm
      · exact hl kv (by simp [hm])
      · exact ih (fun x hx => hl x (List.mem_cons_of_mem _ hx)) kv hm

theorem alookup_cp_of_lower (items : List (Str × Str))
    (h : ∀ kv ∈ items, lower kv.1 = kv.1) : alookup "CP".data items = none := by
  induction items with
  | nil => rfl
  | cons hd tl ih =>
    have hl := h hd (List.mem_cons_self hd tl)
    by_cases he : hd.1 = "CP".data
    · rw [he] at hl
      exact absurd hl (by decide)
    · simp only [alookup, if_neg he]
      exact ih fun kv hk => h kv (List.mem_cons_of_mem _ hk)

/-- Claim C1: every public operation of the session manager — `run_simulation`,
`run_calibration_flow`, `run_sensitivity_analysis` — leaves the engine session
handle `none` after it returns, for every outcome: normal return, validation
error, or any external-call failure (all oracle behaviours are quantified). -/
theorem sessions_always_closed (o : EngineOracle) (r : MatlabRunner) (w : World)
    (pp pn fp : Option Str) (ov : Option (List Str)) (pr : Option ParamRanges)
    (vb : Option Int) :
    (run_simulation o r w pp pn ov vb).2.1.engine = none
    ∧ (run_calibration_flow o r w pp fp pn vb).2.1.engine = none
    ∧ (run_sensitivity_analysis o r w pp pn pr vb).2.1.engine = none := by
  refine ⟨?_, ?_, ?_⟩
  · simp only [run_simulation]
    exact close_engine_engine _
  · simp only [run_calibration_flow]
    exact close_engine_engine _
  · simp only [run_sensitivity_analysis]
    exact close_engine_engine _

/-- Claim C3: when neither the argument nor the stored simulation settings
resolve the physiographic path or the parameter-file name to a truthy value,
`run_simulation` fails with the validation error before any engine session is
started (world unchanged, start count included) and returns `none` instead of
propagating the exception. -/
theorem simulation_validation_before_session (o : EngineOracle) (r : MatlabRunner)
    (w : World) (pp pn : Option Str) (ov : Option (List Str)) (vb : Option Int)
    (h : truthyO (pyOr (Option.map PyVal.str pp)
          (alookup "physiographic_path".data (get_simulation_settings r.cm.config))) = false
       ∨ truthyO (pyOr (Option.map PyVal.str pn)
          (alookup "params_file".data (get_simulation_settings r.cm.config))) = false) :
    (run_simulation_try o r w pp pn ov vb).1 = Except.error simValMsg
    ∧ run_simulation o r w pp pn ov vb = (none, close_engine r, w) := by
  have htry : run_simulation_try o r w pp pn ov vb = (Except.error simValMsg, r, w) := by
    rcases h with h | h <;>
      simp [run_simulation_try, h]
  refine ⟨by rw [htry], ?_⟩
  simp [run_simulation, htry, exceptToOption]

/-- Claim C10: an empty string passed as `physiographic_path` is rejected by
the truthiness check exactly like an absent argument: with no non-empty stored
fallback the whole operation behaves identically to the call with `None` and
fails validation, returning `none`. -/
theorem empty_string_param_like_missing (o : EngineOracle) (r : MatlabRunner)
    (w : World) (pn : Option Str) (ov : Option (List Str)) (vb : Option Int)
    (h : alookup "physiographic_path".data (get_simulation_settings r.cm.config) = none
       ∨ alookup "physiographic_path".data (get_simulation_settings r.cm.config)
           = some (PyVal.str [])) :
    run_simulation o r w (some []) pn ov vb = run_simulation o r w none pn ov vb
    ∧ (run_simulation o r w (some []) pn ov vb).1 = none := by
  have hpp : pyOr (Option.map PyVal.str (some ([] : Str)))
      (alookup "physiographic_path".data (get_simulation_settings r.cm.config))
      = pyOr (Option.map PyVal.str (none : Option Str))
      (alookup "physiographic_path".data (get_simulation_settings r.cm.config)) := by
    simp [pyOr, truthyO, truthy]
  have heq : run_simulation_try o r w (some []) pn ov vb
      = run_simulation_try o r w none pn ov vb := by
    simp only [run_simulation_try]
    rw [hpp]
  have hfalse : truthyO (pyOr (none : Option PyVal)
      (alookup "physiographic_path".data (get_simulation_settings r.cm.config))) = false := by
    rcases h with h | h <;> simp [pyOr, truthyO, truthy, h]
  have htry : (run_simulation_try o r w none pn ov vb).1 = Except.error simValMsg := by
    simp [run_simulation_try, hfalse]
  constructor
  · simp only [run_simulation]
    rw [heq]
  · simp only [run_simulation]
    rw [heq, htry]
    rfl

theorem cp_lookup_after_upsert (v : Str) (items : List (Str × Str))
    (h : ∀ kv ∈ items, lower kv.1 = kv.1) :
    alookup "CP".data (upsert "cp".data v items) = none := by
  apply alookup_cp_of_lower
  have hcp : lower ("cp".data : Str) = "cp".data := by decide
  exact @upsert_forall _ (fun kv => lower kv.1 = kv.1) _ _ _ hcp h

/-- Claim C4: a CALIBRATION `CP` entry whose value does not parse as an
integer never makes `MatlabRunner.__init__` raise: construction succeeds and
the runner carries the default `CP = 1` (the stored key is lowercased to `cp`
by the store, so the dict lookup of `CP` always misses and yields the
default). -/
theorem cp_unparseable_defaults (c : Config) (file v : Str)
    (hn : normalizedB c = true) (hv : pyIntOfStr v = none) :
    (exceptToOption (mkRunner ⟨file, Config.setKey c "CALIBRATION".data "CP".data v⟩)).map
      MatlabRunner.CP = some 1 := by
  have hnormAll : ∀ s ∈ c.sections, ∀ kv ∈ s.2, lower kv.1 = kv.1 := by
    intro s hs kv hk
    have h1 := (List.all_eq_true.mp hn) s hs
    have h2 := (List.all_eq_true.mp h1) kv hk
    exact of_decide_eq_true h2
  have hcal : alookup "CP".data
      (get_calibration_settings (Config.setKey c "CALIBRATION".data "CP".data v)) = none := by
    simp only [get_calibration_settings, Config.setKey,
      show lower "CP".data = "cp".data from by decide]
    by_cases hs : c.hasSection "CALIBRATION".data
    · rw [if_pos hs]
      rw [alookup_map_ite]
      obtain ⟨items, hcs⟩ := Option.isSome_iff_exists.mp hs
      rw [hcs]
      simp only [Option.map_some', Option.getD_some]
      exact cp_lookup_after_upsert v items
        (hnormAll (_, items) (alookup_mem hcs))
    · rw [if_neg hs]
      rw [List.map_append, alookup_append_of_none]
      · simp only [List.map_cons, List.map_nil, eq_self_iff_true, if_true, ite_true]
        rw [alookup_cons, if_pos rfl]
        simp only [Option.getD_some]
        rw [show upsert "cp".data v ([] : List (Str × Str)) = [("cp".data, v)] from rfl]
        rw [alookup_cons, if_neg (by decide)]
        rfl
      · rw [alookup_map_ite]
        have : alookup "CALIBRATION".data c.sections = none := by
          rcases ho : alookup "CALIBRATION".data c.sections with _ | its
          · rfl
          · exact absurd (by simp [Config.hasSection, ho]) hs
        rw [this]
        rfl
  simp only [mkRunner, hcal, Option.getD_none]
  rw [show pyIntOfStr "1".data = some 1 from by decide]
  rfl

/-- Concrete engine oracle on which every external call succeeds. -/
def oTest : EngineOracle :=
  { startOk := true
    datenum := fun _ => Except.ok 0
    main_simulation := fun _ _ _ _ _ => Except.ok []
    main_calibration_flow := fun _ _ _ _ _ _ _ => Except.ok ()
    main_sensitivity := fun _ _ _ _ _ => Except.ok [] }

/-- Concrete configuration resolving all operation parameters. -/
def cfgTest : Config :=
  ⟨[("SIMULATION".data,
     [("physiographic_path".data, "phys".data),
      ("flow_file_path".data, "flow.txt".data),
      ("params_file".data, "params.json".data)])]⟩

def runnerTest : MatlabRunner :=
  { cm := ⟨"simulations_setup.txt".data, cfgTest⟩
    matlab_paths := defaultMatlabPaths
    start_date := "1979-1-1".data
    end_date := "2000-12-31".data
    objective_function := "KGE".data
    calibration_type := "single_site".data
    CP := 1
    engine := none }

/-- Runner whose configuration store is empty (nothing resolvable). -/
def runnerBare : MatlabRunner :=
  { cm := ⟨"simulations_setup.txt".data, ⟨[]⟩⟩
    matlab_paths := defaultMatlabPaths
    start_date := "1979-1-1".data
    end_date := "2000-12-31".data
    objective_function := "KGE".data
    calibration_type := "single_site".data
    CP := 1
    engine := none }

def worldTest : World := ⟨⟨[], []⟩, 0⟩

theorem simulation_validation_before_session_witness :
    (truthyO (pyOr (Option.map PyVal.str (none : Option Str))
        (alookup "physiographic_path".data (get_simulation_settings runnerBare.cm.config))) = false
      ∨ truthyO (pyOr (Option.map PyVal.str (none : Option Str))
        (alookup "params_file".data (get_simulation_settings runnerBare.cm.config))) = false)
    ∧ ((run_simulation_try oTest runnerBare worldTest none none none none).1
        = Except.error simValMsg
      ∧ run_simulation oTest runnerBare worldTest none none none none
        = (none, close_engine runnerBare, worldTest)) :=
  ⟨by decide,
   simulation_validation_before_session oTest runnerBare worldTest none none none none
     (by decide)⟩

theorem empty_string_param_like_missing_witness :
    (alookup "physiographic_path".data (get_simulation_settings runnerBare.cm.config) = none
      ∨ alookup "physiographic_path".data (get_simulation_settings runnerBare.cm.config)
          = some (PyVal.str []))
    ∧ (run_simulation oTest runnerBare worldTest (some []) none none none
        = run_simulation oTest runnerBare worldTest none none none none
      ∧ (run_simulation oTest runnerBare worldTest (some []) none none none).1 = none) :=
  ⟨by decide,
   empty_string_param_like_missing oTest runnerBare worldTest none none none (by decide)⟩

theorem cp_unparseable_defaults_witness :
    (normalizedB ⟨[]⟩ = true ∧ pyIntOfStr "abc".data = none)
    ∧ (exceptToOption (mkRunner ⟨"f".data,
        Config.setKey ⟨[]⟩ "CALIBRATION".data "CP".data "abc".data⟩)).map
        MatlabRunner.CP = some 1 :=
  ⟨⟨by decide, by decide⟩,
   cp_unparseable_defaults ⟨[]⟩ "f".data "abc".data (by decide) (by decide)⟩

/-- Claim C2: `run_calibration_flow` returns the integer 0 exactly when the
calibration call chain completes without error, and 1 on any caught failure
(validation, engine start, date conversion or the external call); in every
case the session handle is `none` afterwards. -/
theorem calibration_status_code (o : EngineOracle) (r : MatlabRunner) (w : World)
    (pp fp pn : Option Str) (vb : Option Int) (h : r.engine = none) :
    (run_calibration_flow o r w pp fp pn vb).1
      = (if calib_ok o r w pp fp pn then 0 else 1)
    ∧ (run_calibration_flow o r w pp fp pn vb).2.1.engine = none := by
  refine ⟨?_, by simp only [run_calibration_flow]; exact close_engine_engine _⟩
  cases hs : o.startOk <;>
  cases hd1 : o.datenum r.start_date <;>
  cases hd2 : o.datenum r.end_date <;>
  by_cases h1 : truthyO (pyOr (Option.map PyVal.str pp)
      (alookup "physiographic_path".data (get_simulation_settings r.cm.config))) <;>
  by_cases h2 : truthyO (pyOr (Option.map PyVal.str fp)
      (alookup "flow_file_path".data (get_simulation_settings r.cm.config))) <;>
  by_cases h3 : truthyO (pyOr (Option.map PyVal.str pn)
      (alookup "params_file".data (get_simulation_settings r.cm.config))) <;>
  simp [run_calibration_flow, run_calibration_flow_try, calib_ok, initialize_engine,
    get_execution_params, h, hs, hd1, hd2, h1, h2, h3] <;>
  first
    | rfl
    | (split <;> rename_i hsplit <;> split at hsplit <;> simp_all [isOkB])

theorem calibration_status_code_witness :
    runnerTest.engine = none
    ∧ ((run_calibration_flow oTest runnerTest worldTest none none none none).1
        = (if calib_ok oTest runnerTest worldTest none none none then 0 else 1)
      ∧ (run_calibration_flow oTest runnerTest worldTest none none none none).2.1.engine
        = none) :=
  ⟨rfl, calibration_status_code oTest runnerTest worldTest none none none none rfl⟩

theorem alookup_upsert_self {α : Type} (k : Str) (v : α) (l : List (Str × α)) :
    alookup k (upsert k v l) = some v := by
  induction l with
  | nil => simp [upsert, alookup]
  | cons hd tl ih =>
    obtain ⟨k', v'⟩ := hd
    by_cases h : k' = k
    · simp [upsert, alookup, h]
    · simp only [upsert, if_neg h, alookup_cons, if_neg h, ih]

theorem alookup_upsert_other {α : Type} {k k' : Str} (v : α) (l : List (Str × α))
    (h : k' ≠ k) : alookup k (upsert k' v l) = alookup k l := by
  induction l with
  | nil => simp [upsert, alookup, h]
  | cons hd tl ih =>
    obtain ⟨k'', v''⟩ := hd
    by_cases h2 : k'' = k'
    · subst h2
      simp [upsert, alookup_cons, h]
    · simp only [upsert, if_neg h2, alookup_cons, ih]

theorem alookup_map_snd {α β : Type} (f : α → β) (k : Str) (l : List (Str × α)) :
    alookup k (l.map fun kv => (kv.1, f kv.2)) = (alookup k l).map f := by
  induction l with
  | nil => rfl
  | cons hd tl ih =>
    obtain ⟨k', v'⟩ := hd
    by_cases h : k' = k
    · simp [alookup_cons, h]
    · simp [alookup_cons, h, ih]

theorem get_setKey_self (c : Config) (sec k v : Str) :
    Config.get (Config.setKey c sec k v) sec k = some v := by
  simp only [Config.get, Config.setKey]
  by_cases hs : c.hasSection sec
  · rw [if_pos hs, alookup_map_ite]
    obtain ⟨items, hcs⟩ := Option.isSome_iff_exists.mp hs
    rw [hcs]
    simp only [Option.map_some']
    exact alookup_upsert_self _ _ _
  · rw [if_neg hs, List.map_append, alookup_append_of_none]
    · simp only [List.map_cons, List.map_nil, eq_self_iff_true, if_true, ite_true]
      rw [alookup_cons, if_pos rfl]
      exact alookup_upsert_self _ _ _
    · rw [alookup_map_ite]
      rcases ho : alookup sec c.sections with _ | its
      · rfl
      · exact absurd (by simp [Config.hasSection, ho]) hs

/-- Claim C6 counterexample: in a configuration file with no DATES section the
`start_date`/`end_date` keys are omitted, yet the date-range accessor returns
the empty mapping rather than the fixed defaults. -/
theorem date_defaults_cex :
    alookup "DATES".data (Config.mk []).sections = none
    ∧ get_date_range ⟨[]⟩ = []
    ∧ alookup "start_date".data (get_date_range ⟨[]⟩) ≠ some "1979-1-1".data := by
  decide

/-- Claim C6 (amended): when a DATES section exists but omits both keys, the
accessor yields the fixed defaults `1979-1-1` / `2000-12-31`; and whenever the
keys are omitted — with or without a DATES section — the session manager is
constructed with those default dates. -/
theorem date_defaults_amended :
    (∀ (c : Config) (its : List (Str × Str)),
      alookup "DATES".data c.sections = some its →
      alookup "start_date".data its = none →
      alookup "end_date".data its = none →
      get_date_range c
        = [("start_date".data, "1979-1-1".data), ("end_date".data, "2000-12-31".data)])
    ∧ (∀ (cm : ConfigManager) (r : MatlabRunner),
      Config.get cm.config "DATES".data "start_date".data = none →
      Config.get cm.config "DATES".data "end_date".data = none →
      mkRunner cm = Except.ok r →
      r.start_date = "1979-1-1".data ∧ r.end_date = "2000-12-31".data) := by
  constructor
  · intro c its hd h1 h2
    simp [get_date_range, hd, h1, h2]
  · intro cm r h1 h2 hok
    have hsd : (alookup "start_date".data (get_date_range cm.config)).getD "1979-1-1".data
        = "1979-1-1".data := by
      rcases hd : alookup "DATES".data cm.config.sections with _ | its
      · simp [get_date_range, hd, alookup]
      · simp only [Config.get, hd,
          show lower "start_date".data = "start_date".data from by decide] at h1
        simp [get_date_range, hd, h1, alookup_cons]
    have hed : (alookup "end_date".data (get_date_range cm.config)).getD "2000-12-31".data
        = "2000-12-31".data := by
      rcases hd : alookup "DATES".data cm.config.sections with _ | its
      · simp [get_date_range, hd, alookup]
      · simp only [Config.get, hd,
          show lower "end_date".data = "end_date".data from by decide] at h2
        simp [get_date_range, hd, h2, alookup_cons,
          show ("start_date".data = "end_date".data) = False from by decide]
    simp only [mkRunner] at hok
    split at hok
    · cases hok
      exact ⟨hsd, hed⟩
    · cases hok

def cfgDatesOnly : Config := ⟨[("DATES".data, [])]⟩

/-- Runner produced by construction from an empty store. -/
def rDflt : MatlabRunner :=
  { cm := ⟨"simulations_setup.txt".data, ⟨[]⟩⟩
    matlab_paths := defaultMatlabPaths
    start_date := "1979-1-1".data
    end_date := "2000-12-31".data
    objective_function := "KGE".data
    calibration_type := "single_site".data
    CP := 1
    engine := none }

theorem date_defaults_amended_witness :
    ((alookup "DATES".data cfgDatesOnly.sections = some []
        ∧ alookup "start_date".data ([] : List (Str × Str)) = none
        ∧ alookup "end_date".data ([] : List (Str × Str)) = none)
      ∧ get_date_range cfgDatesOnly
          = [("start_date".data, "1979-1-1".data), ("end_date".data, "2000-12-31".data)])
    ∧ ((Config.get runnerBare.cm.config "DATES".data "start_date".data = none
        ∧ Config.get runnerBare.cm.config "DATES".data "end_date".data = none
        ∧ mkRunner runnerBare.cm = Except.ok rDflt)
      ∧ (rDflt.start_date = "1979-1-1".data ∧ rDflt.end_date = "2000-12-31".data)) :=
  ⟨⟨⟨by decide, by decide, by decide⟩,
    date_defaults_amended.1 cfgDatesOnly [] (by decide) (by decide) (by decide)⟩,
   ⟨⟨by decide, by decide, by rfl⟩,
    date_defaults_amended.2 runnerBare.cm rDflt (by decide) (by decide) (by rfl)⟩⟩

def cfgNoVerbose : Config :=
  ⟨[("SIMULATION".data, [("physiographic_path".data, "p".data)])]⟩

/-- Claim C8 counterexample: with the `verbose` key absent from the SIMULATION
section, the simulation-settings accessor returns a mapping with no `verbose`
entry at all — it does not default it to the integer 0. -/
theorem verbose_absent_cex :
    Config.get cfgNoVerbose "SIMULATION".data "verbose".data = none
    ∧ alookup "verbose".data (get_simulation_settings cfgNoVerbose) = none
    ∧ alookup "verbose".data (get_simulation_settings cfgNoVerbose)
        ≠ some (PyVal.int 0) := by
  decide

/-- Claim C8 (amended): when the `verbose` key is present the accessor returns
it as an integer, clamped to 0 when parsing fails; when absent the accessor
omits the key entirely, and the operations obtain the default 0 only through
their own `.get(-, 0)` lookup on the returned mapping. -/
theorem verbose_accessor_amended :
    (∀ (c : Config) (its : List (Str × Str)) (v : Str),
      alookup "SIMULATION".data c.sections = some its →
      alookup "verbose".data its = some v →
      alookup "verbose".data (get_simulation_settings c)
        = some (PyVal.int ((pyIntOfStr v).getD 0)))
    ∧ (∀ (c : Config) (its : List (Str × Str)),
      alookup "SIMULATION".data c.sections = some its →
      alookup "verbose".data its = none →
      alookup "verbose".data (get_simulation_settings c) = none)
    ∧ (∀ (c : Config) (its : List (Str × Str)),
      alookup "SIMULATION".data c.sections = some its →
      alookup "verbose".data its = none →
      (alookup "verbose".data (get_simulation_settings c)).getD (PyVal.int 0)
        = PyVal.int 0) := by
  have key2 : ∀ (c : Config) (its : List (Str × Str)),
      alookup "SIMULATION".data c.sections = some its →
      alookup "verbose".data its = none →
      alookup "verbose".data (get_simulation_settings c) = none := by
    intro c its hs hv
    simp only [get_simulation_settings, hs, hv]
    rcases hov : alookup "output_vars".data its with _ | ov
    · rw [alookup_map_snd, hv]
      rfl
    · rw [alookup_upsert_other _ _ (by decide), alookup_map_snd, hv]
      rfl
  refine ⟨?_, key2, ?_⟩
  · intro c its v hs hv
    simp only [get_simulation_settings, hs, hv]
    rcases hov : alookup "output_vars".data its with _ | ov
    · exact alookup_upsert_self _ _ _
    · exact alookup_upsert_self _ _ _
  · intro c its hs hv
    rw [key2 c its hs hv]
    rfl

def cfgVerboseBad : Config :=
  ⟨[("SIMULATION".data, [("verbose".data, "x".data)])]⟩

theorem verbose_accessor_amended_witness :
    ((alookup "SIMULATION".data cfgVerboseBad.sections
        = some [("verbose".data, "x".data)]
      ∧ alookup "verbose".data [("verbose".data, "x".data)] = some "x".data)
      ∧ alookup "verbose".data (get_simulation_settings cfgVerboseBad)
          = some (PyVal.int ((pyIntOfStr "x".data).getD 0)))
    ∧ ((alookup "SIMULATION".data cfgNoVerbose.sections
        = some [("physiographic_path".data, "p".data)]
      ∧ alookup "verbose".data [("physiographic_path".data, "p".data)] = none)
      ∧ alookup "verbose".data (get_simulation_settings cfgNoVerbose) = none
      ∧ (alookup "verbose".data (get_simulation_settings cfgNoVerbose)).getD (PyVal.int 0)
          = PyVal.int 0) :=
  ⟨⟨⟨by decide, by decide⟩,
    verbose_accessor_amended.1 cfgVerboseBad [("verbose".data, "x".data)] "x".data
      (by decide) (by decide)⟩,
   ⟨⟨by decide, by decide⟩,
    verbose_accessor_amended.2.1 cfgNoVerbose [("physiographic_path".data, "p".data)]
      (by decide) (by decide),
    verbose_accessor_amended.2.2 cfgNoVerbose [("physiographic_path".data, "p".data)]
      (by decide) (by decide)⟩⟩

/-- Runner with an active engine session holding no registered paths, over an
empty configuration store. -/
def runnerActive : MatlabRunner :=
  { cm := ⟨"simulations_setup.txt".data, ⟨[]⟩⟩
    matlab_paths := defaultMatlabPaths
    start_date := "1979-1-1".data
    end_date := "2000-12-31".data
    objective_function := "KGE".data
    calibration_type := "single_site".data
    CP := 1
    engine := some [] }

/-- Claim C9 counterexample: with a session active, `add_matlab_path` does not
register a path that is absent from the filesystem — the session's registered
paths stay empty although the claim promises registration whenever a session
is active. -/
theorem addpath_session_cex :
    runnerActive.engine = some []
    ∧ FS.pathExists (add_matlab_path runnerActive ⟨[], []⟩ "extra".data "ghost".data).2
        "ghost".data = false
    ∧ (add_matlab_path runnerActive ⟨[], []⟩ "extra".data "ghost".data).1.engine
        = some []
    ∧ (add_matlab_path runnerActive ⟨[], []⟩ "extra".data "ghost".data).1.engine
        ≠ some ["ghost".data] := by
  decide

/-- Claim C9 (amended): `add_matlab_path` updates the in-memory path mapping,
stores the pair in the PATHS section, immediately persists the whole store to
the backing file, and registers the path with the engine session exactly when
a session is active and the path exists on the filesystem (the session's path
list is otherwise unchanged). -/
theorem addpath_amended (r : MatlabRunner) (fs : FS) (name path : Str) :
    alookup name (add_matlab_path r fs name path).1.matlab_paths = some path
    ∧ Config.get (add_matlab_path r fs name path).1.cm.config "PATHS".data name = some path
    ∧ alookup (add_matlab_path r fs name path).1.cm.config_file
        (add_matlab_path r fs name path).2.files
        = some (Config.write (add_matlab_path r fs name path).1.cm.config)
    ∧ (add_matlab_path r fs name path).1.engine
        = (match r.engine with
           | none => none
           | some regs =>
             some (if (add_matlab_path r fs name path).2.pathExists path
               then regs ++ [path] else regs)) := by
  cases he : r.engine with
  | none =>
    simp only [add_matlab_path, update_section, save_config, FS.writeFile, List.foldl,
      pyValToStr, he]
    refine ⟨alookup_upsert_self _ _ _, get_setKey_self _ _ _ _, ?_, trivial⟩
    exact alookup_upsert_self _ _ _
  | some regs =>
    simp only [add_matlab_path, update_section, save_config, FS.writeFile, List.foldl,
      pyValToStr, he]
    by_cases hex : FS.pathExists
        { files := upsert r.cm.config_file
            (Config.write (Config.setKey (ensureSection r.cm.config "PATHS".data)
              "PATHS".data name path)) fs.files
          dirs := fs.dirs } path
    · simp only [hex, if_true, ite_true]
      exact ⟨alookup_upsert_self _ _ _, get_setKey_self _ _ _ _,
        alookup_upsert_self _ _ _, trivial⟩
    · simp only [hex, if_false, ite_false, Bool.false_eq_true]
      exact ⟨alookup_upsert_self _ _ _, get_setKey_self _ _ _ _,
        alookup_upsert_self _ _ _, trivial⟩

/-- A line that `configparser` treats as a full-line comment: its first
non-whitespace character is `#`. -/
def commentLineB (l : Str) : Bool :=
  match lstrip l with
  | [] => false
  | c :: _ => c == '#'

theorem lstrip_cons_of_ws {c : Char} (s : Str) (h : isWS c = true) :
    lstrip (c :: s) = lstrip s := by
  simp [lstrip, List.dropWhile_cons, h]

theorem strip_cons_ws {c : Char} (s : Str) (h : isWS c = true) :
    strip (c :: s) = strip s := by
  simp only [strip, lstrip_cons_of_ws s h]

theorem stripComment_comment (l : Str) (h : commentLineB l = true) :
    strip (stripComment l) = [] := by
  induction l with
  | nil => simp [commentLineB, lstrip] at h
  | cons c t ih =>
    by_cases hw : isWS c = true
    · have hne : (c == '#') = false := by
        by_cases hc : c = '#'
        · subst hc
          exact absurd hw (by decide)
        · simp [hc]
      have ht : commentLineB t = true := by
        simpa [commentLineB, lstrip_cons_of_ws t hw] using h
      have haux : stripComment (c :: t) = c :: stripComment t := by
        simp [stripComment, stripCommentAux, hne, hw]
      rw [haux, strip_cons_ws _ hw]
      exact ih ht
    · have hb : isWS c = false := by simpa using hw
      have hc : (c == '#') = true := by
        simpa [commentLineB, lstrip, List.dropWhile_cons, hb] using h
      have : stripComment (c :: t) = [] := by
        simp [stripComment, stripCommentAux, hc]
      rw [this]
      rfl

theorem parseStep_comment (st : Config × Option Str) (l : Str)
    (h : commentLineB l = true) : parseStep st l = st := by
  simp [parseStep, stripComment_comment l h]

/-- Claim C7: `load()` fails with the file-not-found error whenever the
backing file is absent; when it exists the parse consumes sections and keys
while a comment line contributes nothing (inserting one anywhere leaves the
parsed configuration unchanged). -/
theorem load_and_comments :
    (∀ (fs : FS) (p : Str), fs.pathExists p = false →
      load_config fs p = Except.error (fileNotFoundMsg p))
    ∧ (∀ (pre post : List Str) (l : Str), commentLineB l = true →
      parseLines (pre ++ l :: post) = parseLines (pre ++ post)) := by
  constructor
  · intro fs p h
    simp [load_config, h]
  · intro pre post l h
    simp only [parseLines, List.foldl_append, List.foldl_cons,
      parseStep_comment (List.foldl parseStep ((⟨[]⟩ : Config), (none : Option Str)) pre) l h]

theorem load_and_comments_witness :
    ((FS.pathExists ⟨[], []⟩ "missing.txt".data = false
        ∧ load_config ⟨[], []⟩ "missing.txt".data
          = Except.error (fileNotFoundMsg "missing.txt".data))
      ∧ (commentLineB "# a comment".data = true
        ∧ parseLines (["[SIMULATION]".data] ++ "# a comment".data :: ["verbose = 2".data])
          = parseLines (["[SIMULATION]".data] ++ ["verbose = 2".data]))) :=
  ⟨⟨by decide, load_and_comments.1 ⟨[], []⟩ "missing.txt".data (by decide)⟩,
   ⟨by decide,
    load_and_comments.2 ["[SIMULATION]".data] ["verbose = 2".data] "# a comment".data
      (by decide)⟩⟩

theorem lstrip_length_le (s : Str) : (lstrip s).length ≤ s.length := by
  induction s with
  | nil => simp [lstrip]
  | cons c t ih =>
    rw [lstrip, List.dropWhile_cons]
    by_cases h : isWS c = true
    · simp only [h, if_true, ite_true]
      exact Nat.le_succ_of_le ih
    · simp [h]

theorem lstrip_eq_self_of_length (s : Str) (h : s.length ≤ (lstrip s).length) :
    lstrip s = s := by
  cases s with
  | nil => rfl
  | cons c t =>
    rw [lstrip, List.dropWhile_cons] at h ⊢
    by_cases hc : isWS c = true
    · rw [if_pos hc] at h
      have := lstrip_length_le t
      simp only [List.length_cons, lstrip] at h this
      omega
    · rw [if_neg hc]

theorem lstrip_of_strip {s : Str} (h : strip s = s) : lstrip s = s := by
  apply lstrip_eq_self_of_length
  have h1 : (strip s).length ≤ (lstrip s).length := by
    simp only [strip, List.length_reverse]
    calc (lstrip (lstrip s).reverse).length
        ≤ (lstrip s).reverse.length := lstrip_length_le _
      _ = (lstrip s).length := List.length_reverse _
  rw [h] at h1
  exact h1

theorem rstrip_of_strip {s : Str} (h : strip s = s) : lstrip s.reverse = s.reverse := by
  have hl := lstrip_of_strip h
  have h2 : (lstrip s.reverse).reverse = s := by
    calc (lstrip s.reverse).reverse = (lstrip (lstrip s).reverse).reverse := by rw [hl]
      _ = strip s := rfl
      _ = s := h
  calc lstrip s.reverse = ((lstrip s.reverse).reverse).reverse :=
        (List.reverse_reverse _).symm
    _ = s.reverse := by rw [h2]

theorem strip_of_parts {s : Str} (h1 : lstrip s = s) (h2 : lstrip s.reverse = s.reverse) :
    strip s = s := by
  simp only [strip, h1, h2, List.reverse_reverse]

theorem head_not_ws {c : Char} {t : Str} (h : lstrip (c :: t) = c :: t) :
    isWS c = false := by
  by_cases hc : isWS c = true
  · rw [lstrip, List.dropWhile_cons, if_pos hc] at h
    have hle := lstrip_length_le t
    have hlen := congrArg List.length h
    simp only [List.length_cons, lstrip] at hlen hle
    omega
  · simpa using hc

theorem lstrip_cons_of_not_ws {c : Char} (t : Str) (h : isWS c = false) :
    lstrip (c :: t) = c :: t := by
  simp [lstrip, List.dropWhile_cons, h]

theorem lstrip_append_of_head {A : Str} (B : Str) (h : lstrip A = A) (hne : A ≠ []) :
    lstrip (A ++ B) = A ++ B := by
  cases A with
  | nil => exact absurd rfl hne
  | cons c t =>
    have hc := head_not_ws h
    simpa using lstrip_cons_of_not_ws (t ++ B) hc

theorem strip_reverse_of_strip {s : Str} (h : strip s = s) :
    strip s.reverse = s.reverse := by
  apply strip_of_parts
  · exact rstrip_of_strip h
  · rw [List.reverse_reverse]
    exact lstrip_of_strip h

theorem joinSep_eq_nil_iff (sep : Char) (parts : List Str) (h : parts ≠ []) :
    joinSep sep parts = [] ↔ parts = [[]] := by
  rcases parts with _ | ⟨x, _ | ⟨y, rest⟩⟩
  · exact absurd rfl h
  · simp [joinSep]
  · simp only [joinSep]
    constructor
    · intro hc
      rcases List.append_eq_nil.mp hc with ⟨h1, h2⟩
      simp at h2
    · intro hc
      simp at hc

theorem splitSep_sepfree {sep : Char} : ∀ {x : Str}, ¬ sep ∈ x → splitSep sep x = [x] := by
  intro x
  induction x with
  | nil => intro _; rfl
  | cons c t ih =>
    intro h
    have hct : ¬ sep ∈ t := fun hm => h (List.mem_cons_of_mem _ hm)
    have hcs : ¬ c = sep := fun he => h (he ▸ List.mem_cons_self c t)
    simp only [splitSep, ih hct, if_neg hcs]

theorem splitSep_append {sep : Char} : ∀ {x : Str} (t g : Str) (gs : List Str),
    ¬ sep ∈ x → splitSep sep t = g :: gs → splitSep sep (x ++ t) = (x ++ g) :: gs := by
  intro x
  induction x with
  | nil =>
    intro t g gs _ ht
    simpa using ht
  | cons c x' ih =>
    intro t g gs h ht
    have hct : ¬ sep ∈ x' := fun hm => h (List.mem_cons_of_mem _ hm)
    have hcs : ¬ c = sep := fun he => h (he ▸ List.mem_cons_self c x')
    have hx' : splitSep sep (x'.append t) = (x' ++ g) :: gs := ih t g gs hct ht
    simp only [List.cons_append, splitSep, hx', if_neg hcs]

theorem splitSep_joinSep {sep : Char} : ∀ (parts : List Str), parts ≠ [] →
    (∀ p ∈ parts, ¬ sep ∈ p) → splitSep sep (joinSep sep parts) = parts := by
  intro parts
  induction parts with
  | nil => intro h _; exact absurd rfl h
  | cons x rest ih =>
    intro _ h
    cases rest with
    | nil =>
      simp only [joinSep]
      exact splitSep_sepfree (h x (List.mem_cons_self _ _))
    | cons y rest' =>
      have hx : ¬ sep ∈ x := h x (List.mem_cons_self _ _)
      have hrest : splitSep sep (joinSep sep (y :: rest')) = y :: rest' :=
        ih (by simp) (fun p hp => h p (List.mem_cons_of_mem _ hp))
      have hsep : splitSep sep (sep :: joinSep sep (y :: rest')) = [] :: y :: rest' := by
        simp [splitSep, hrest]
      have hfull := splitSep_append (sep :: joinSep sep (y :: rest')) [] (y :: rest') hx hsep
      simpa [joinSep] using hfull

theorem not_mem_joinSep {c sep : Char} (hcs : c ≠ sep) :
    ∀ (parts : List Str), (∀ p ∈ parts, ¬ c ∈ p) → ¬ c ∈ joinSep sep parts := by
  intro parts
  induction parts with
  | nil => intro _; simp [joinSep]
  | cons x rest ih =>
    intro h
    cases rest with
    | nil => simpa [joinSep] using h x (List.mem_cons_self _ _)
    | cons y rest' =>
      simp only [joinSep]
      intro hmem
      rcases List.mem_append.mp hmem with hm | hm
      · exact h x (List.mem_cons_self _ _) hm
      · rcases List.mem_cons.mp hm with hm2 | hm2
        · exact hcs hm2
        · exact ih (fun p hp => h p (List.mem_cons_of_mem _ hp)) hm2

theorem lstrip_joinSep {sep : Char} (hws : isWS sep = false) :
    ∀ (parts : List Str), parts ≠ [] → (∀ p ∈ parts, strip p = p) →
    lstrip (joinSep sep parts) = joinSep sep parts := by
  intro parts
  cases parts with
  | nil => intro h _; exact absurd rfl h
  | cons x rest =>
    intro _ h
    cases rest with
    | nil =>
      simpa [joinSep] using lstrip_of_strip (h x (List.mem_cons_self _ _))
    | cons y rest' =>
      simp only [joinSep]
      cases x with
      | nil =>
        simp only [List.nil_append]
        exact lstrip_cons_of_not_ws _ hws
      | cons c t =>
        have hx := lstrip_of_strip (h (c :: t) (List.mem_cons_self _ _))
        have hc := head_not_ws hx
        simpa using lstrip_cons_of_not_ws (t ++ sep :: joinSep sep (y :: rest')) hc

theorem joinSep_append_single (sep : Char) :
    ∀ (L : List Str) (z : Str), L ≠ [] →
    joinSep sep (L ++ [z]) = joinSep sep L ++ sep :: z := by
  intro L
  induction L with
  | nil => intro z hz; exact absurd rfl hz
  | cons x rest ih =>
    intro z _
    cases rest with
    | nil => simp [joinSep]
    | cons y rest' =>
      have hih := ih z (by simp)
      simp only [List.cons_append] at hih ⊢
      simp only [joinSep] at hih ⊢
      rw [hih]
      simp [List.append_assoc]

theorem joinSep_reverse (sep : Char) :
    ∀ (parts : List Str),
    (joinSep sep parts).reverse = joinSep sep ((parts.map List.reverse).reverse) := by
  intro parts
  induction parts with
  | nil => rfl
  | cons x rest ih =>
    cases rest with
    | nil => simp [joinSep]
    | cons y rest' =>
      simp only [joinSep, List.reverse_append, List.reverse_cons, List.map_cons]
      rw [ih]
      rw [joinSep_append_single sep ((List.map List.reverse rest').reverse
        ++ [List.reverse y]) x.reverse (by simp)]
      simp [List.reverse_cons, List.map_cons, List.append_assoc]

theorem strip_joinSep {sep : Char} (hws : isWS sep = false) (parts : List Str)
    (hne : parts ≠ []) (h : ∀ p ∈ parts, strip p = p) :
    strip (joinSep sep parts) = joinSep sep parts := by
  apply strip_of_parts
  · exact lstrip_joinSep hws parts hne h
  · rw [joinSep_reverse]
    apply lstrip_joinSep hws
    · simp [hne]
    · intro p hp
      rw [List.mem_reverse] at hp
      rcases List.mem_map.mp hp with ⟨q, hq, rfl⟩
      exact strip_reverse_of_strip (h q hq)

theorem stripCommentAux_of_not_mem : ∀ (l : Str) (b : Bool), ¬ '#' ∈ l →
    stripCommentAux b l = l := by
  intro l
  induction l with
  | nil => intro b _; rfl
  | cons c t ih =>
    intro b h
    have hc : ¬ c = '#' := fun he => h (he ▸ List.mem_cons_self _ _)
    have hcb : (c == '#') = false := by simpa using hc
    simp only [stripCommentAux, hcb, Bool.false_and, Bool.false_eq_true, if_false,
      ite_false, List.cons.injEq, true_and]
    exact ih _ (fun hm => h (List.mem_cons_of_mem _ hm))

theorem stripComment_of_not_mem (l : Str) (h : ¬ '#' ∈ l) : stripComment l = l :=
  stripCommentAux_of_not_mem l true h

theorem splitAtDelim_append : ∀ (x t : Str), ¬ '=' ∈ x → ¬ ':' ∈ x →
    splitAtDelim (x ++ '=' :: t) = some (x, t) := by
  intro x
  induction x with
  | nil =>
    intro t _ _
    simp [splitAtDelim]
  | cons c x' ih =>
    intro t h1 h2
    have hc1 : ¬ c = '=' := fun he => h1 (he ▸ List.mem_cons_self _ _)
    have hc2 : ¬ c = ':' := fun he => h2 (he ▸ List.mem_cons_self _ _)
    simp only [List.cons_append, splitAtDelim, hc1, hc2, decide_eq_true_eq, if_false,
      Bool.or_self, Bool.false_or, Bool.or_false, ite_false,
      Bool.false_eq_true, Option.map_eq_some']
    refine ⟨(x', t), ?_, rfl⟩
    exact ih t (fun hm => h1 (List.mem_cons_of_mem _ hm))
      (fun hm => h2 (List.mem_cons_of_mem _ hm))

/-- Base store for the `output_vars` round trip: the canonical empty
configuration backed by `simulations_setup.txt`. -/
def cmRT : ConfigManager := ⟨"simulations_setup.txt".data, ⟨[]⟩⟩

def fsRT : FS := ⟨[], []⟩

/-- The `output_vars` list round trip: write the list into the SIMULATION
section through `update_section` (which persists the store), reload the store
from the written file, and read the list back through
`get_simulation_settings`. -/
def roundtripResult (vars : List Str) : Option PyVal :=
  match load_config (update_section cmRT fsRT "SIMULATION".data
      [("output_vars".data, PyVal.list vars)]).2 cmRT.config_file with
  | Except.ok c2 => alookup "output_vars".data (get_simulation_settings c2)
  | Except.error _ => none

theorem map_strip_id (l : List Str) (h : ∀ v ∈ l, strip v = v) : l.map strip = l := by
  induction l with
  | nil => rfl
  | cons x t ih =>
    simp only [List.map_cons, h x (List.mem_cons_self _ _),
      ih fun v hv2 => h v (List.mem_cons_of_mem _ hv2)]

/-- Claim C5 (amended): every non-empty list of variable names that are free
of commas, comment markers (`#`), newlines and carriage returns, and carry no
leading or trailing whitespace, written to the SIMULATION section's
`output_vars` key via `update_section`, persisted, and re-read through
`get_simulation_settings`, yields the identical ordered list. -/
theorem output_vars_roundtrip_amended (vars : List Str) (hne : vars ≠ [])
    (hv : ∀ v ∈ vars, ¬ ',' ∈ v ∧ ¬ '#' ∈ v ∧ ¬ '\n' ∈ v ∧ ¬ '\r' ∈ v ∧ strip v = v) :
    roundtripResult vars = some (PyVal.list vars) := by
  by_cases hsingle : vars = [[]]
  · subst hsingle
    decide
  have hstripJ : strip (joinSep ',' vars) = joinSep ',' vars :=
    strip_joinSep (by decide) vars hne fun p hp => (hv p hp).2.2.2.2
  have hJne : joinSep ',' vars ≠ [] := fun hc =>
    hsingle ((joinSep_eq_nil_iff ',' vars hne).mp hc)
  have hcommaJ : splitSep ',' (joinSep ',' vars) = vars :=
    splitSep_joinSep vars hne fun p hp => (hv p hp).1
  have hhashJ : ¬ '#' ∈ joinSep ',' vars :=
    not_mem_joinSep (by decide) vars fun p hp => (hv p hp).2.1
  have hnlJ : ¬ '\n' ∈ joinSep ',' vars :=
    not_mem_joinSep (by decide) vars fun p hp => (hv p hp).2.2.1
  have h0 : roundtripResult vars
      = alookup "output_vars".data (get_simulation_settings (parseText
          (joinSep '\n' ["[SIMULATION]".data,
            "output_vars".data ++ ' ' :: '=' :: ' ' :: joinSep ',' vars, []]))) := rfl
  have h2 : parseText (joinSep '\n' ["[SIMULATION]".data,
        "output_vars".data ++ ' ' :: '=' :: ' ' :: joinSep ',' vars, []])
      = parseLines ["[SIMULATION]".data,
        "output_vars".data ++ ' ' :: '=' :: ' ' :: joinSep ',' vars, []] := by
    unfold parseText
    rw [splitSep_joinSep _ (by simp)]
    intro p hp
    simp only [List.mem_cons, List.not_mem_nil, or_false] at hp
    rcases hp with rfl | rfl | rfl
    · decide
    · intro hm
      rcases List.mem_append.mp hm with hm1 | hm1
      · exact absurd hm1 (by decide)
      · simp only [List.mem_cons] at hm1
        rcases hm1 with h | h | h | h
        · exact absurd h (by decide)
        · exact absurd h (by decide)
        · exact absurd h (by decide)
        · exact hnlJ h
    · simp
  have hkvcons : "output_vars".data ++ ' ' :: '=' :: ' ' :: joinSep ',' vars
      = 'o' :: ("utput_vars".data ++ ' ' :: '=' :: ' ' :: joinSep ',' vars) := rfl
  have hkv_nohash : ¬ '#' ∈ ("output_vars".data ++ ' ' :: '=' :: ' ' :: joinSep ',' vars) := by
    intro hm
    rcases List.mem_append.mp hm with hm1 | hm1
    · exact absurd hm1 (by decide)
    · simp only [List.mem_cons] at hm1
      rcases hm1 with h | h | h | h
      · exact absurd h (by decide)
      · exact absurd h (by decide)
      · exact absurd h (by decide)
      · exact hhashJ h
  have ha : stripComment ("output_vars".data ++ ' ' :: '=' :: ' ' :: joinSep ',' vars)
      = "output_vars".data ++ ' ' :: '=' :: ' ' :: joinSep ',' vars :=
    stripComment_of_not_mem _ hkv_nohash
  have hbl : lstrip ("output_vars".data ++ ' ' :: '=' :: ' ' :: joinSep ',' vars)
      = "output_vars".data ++ ' ' :: '=' :: ' ' :: joinSep ',' vars := by
    rw [hkvcons]
    exact lstrip_cons_of_not_ws _ (by decide)
  have hKVsplit : "output_vars".data ++ ' ' :: '=' :: ' ' :: joinSep ',' vars
      = "output_vars = ".data ++ joinSep ',' vars := by
    rw [show ("output_vars = ".data : Str) = "output_vars".data ++ [' ', '=', ' '] from by decide]
    rw [List.append_assoc]
    rfl
  have hbr : lstrip ("output_vars".data ++ ' ' :: '=' :: ' ' :: joinSep ',' vars).reverse
      = ("output_vars".data ++ ' ' :: '=' :: ' ' :: joinSep ',' vars).reverse := by
    rw [hKVsplit, List.reverse_append]
    exact lstrip_append_of_head _ (rstrip_of_strip hstripJ) (by simp [hJne])
  have hb : strip ("output_vars".data ++ ' ' :: '=' :: ' ' :: joinSep ',' vars)
      = "output_vars".data ++ ' ' :: '=' :: ' ' :: joinSep ',' vars :=
    strip_of_parts hbl hbr
  have hKVdelim : "output_vars".data ++ ' ' :: '=' :: ' ' :: joinSep ',' vars
      = "output_vars ".data ++ '=' :: (' ' :: joinSep ',' vars) := rfl
  have hd : splitAtDelim ("output_vars".data ++ ' ' :: '=' :: ' ' :: joinSep ',' vars)
      = some ("output_vars ".data, ' ' :: joinSep ',' vars) := by
    rw [hKVdelim]
    exact splitAtDelim_append _ _ (by decide) (by decide)
  have hf : strip (' ' :: joinSep ',' vars) = joinSep ',' vars := by
    rw [strip_cons_ws _ (by decide), hstripJ]
  have hKVne : ("output_vars".data ++ ' ' :: '=' :: ' ' :: joinSep ',' vars) ≠ [] := by
    rw [hkvcons]
    exact List.cons_ne_nil _ _
  have hhdr : headerName? ("output_vars".data ++ ' ' :: '=' :: ' ' :: joinSep ',' vars)
      = none := by
    rw [hkvcons]
    simp [headerName?]
  have hstep2 : parseStep ((⟨[("SIMULATION".data, [])]⟩ : Config), some "SIMULATION".data)
        ("output_vars".data ++ ' ' :: '=' :: ' ' :: joinSep ',' vars)
      = ((⟨[("SIMULATION".data,
            [("output_vars".data, joinSep ',' vars)])]⟩ : Config),
         some "SIMULATION".data) := by
    simp only [parseStep, ha, hb, hd, hhdr, hf, if_neg hKVne,
      show strip ("output_vars ".data : Str) = "output_vars".data from by decide]
    rfl
  have hstep1 : parseStep ((⟨[]⟩ : Config), (none : Option Str)) "[SIMULATION]".data
      = ((⟨[("SIMULATION".data, [])]⟩ : Config), some "SIMULATION".data) := by decide
  have h5 : parseLines ["[SIMULATION]".data,
        "output_vars".data ++ ' ' :: '=' :: ' ' :: joinSep ',' vars, []]
      = ⟨[("SIMULATION".data, [("output_vars".data, joinSep ',' vars)])]⟩ := by
    unfold parseLines
    rw [List.foldl_cons, hstep1, List.foldl_cons, hstep2, List.foldl_cons]
    rfl
  have h6 : alookup "output_vars".data (get_simulation_settings
        ⟨[("SIMULATION".data, [("output_vars".data, joinSep ',' vars)])]⟩)
      = some (PyVal.list ((splitSep ',' (joinSep ',' vars)).map strip)) := rfl
  rw [h0, h2, h5, h6, hcommaJ,
    map_strip_id vars fun v hvv => (hv v hvv).2.2.2.2]

/-- Claim C5 counterexample: the empty list — every member of which is
vacuously comma-free — does not round-trip: the empty joined string re-reads
as the one-element list containing the empty name. -/
theorem output_vars_roundtrip_empty_cex :
    roundtripResult [] = some (PyVal.list [[]])
    ∧ some (PyVal.list [[]]) ≠ some (PyVal.list ([] : List Str)) := by
  decide

theorem output_vars_roundtrip_amended_witness :
    ((["debit".data, "volume".data] ≠ ([] : List Str))
      ∧ (∀ v ∈ ["debit".data, "volume".data],
          ¬ ',' ∈ v ∧ ¬ '#' ∈ v ∧ ¬ '\n' ∈ v ∧ ¬ '\r' ∈ v ∧ strip v = v))
    ∧ roundtripResult ["debit".data, "volume".data]
        = some (PyVal.list ["debit".data, "volume".data]) :=
  ⟨⟨by decide, by decide⟩,
   output_vars_roundtrip_amended ["debit".data, "volume".data] (by decide) (by decide)⟩
